import Mathlib

/-
Shallow embedding of the pywren-ibm-cloud compute layer:
  * pywren_ibm_cloud/compute/compute.py               (Compute.invoke retry loop)
  * pywren_ibm_cloud/compute/backends/knative/knative.py
                                                      (KnativeServingBackend)
Strings are modelled as `List Char`; Python `str.replace`, `str.rsplit` and
`int()` are embedded with their left-to-right / rightmost-occurrence
semantics.  Stateful parts of the backend (the k8s cluster contents and the
in-memory `service_hosts` cache) are modelled as explicit state records, and
Python exceptions as `Except` / `Option`.
-/

set_option autoImplicit false

namespace PyWrenKn

/-- Python strings, modelled as lists of characters. -/
abbrev Str := List Char

/-! ### Python string primitives used by the knative backend -/

/-- Python `s.replace(a, new)` for a one-character pattern `a`. -/
def replace1 (a : Char) (new : Str) : Str → Str
  | [] => []
  | c :: cs => if c = a then new ++ replace1 a new cs else c :: replace1 a new cs

/-- Python `s.replace(ab, new)` for a two-character pattern `a,b`:
left-to-right, non-overlapping replacement of every occurrence. -/
def replace2 (a b : Char) (new : Str) : Str → Str
  | [] => []
  | [c] => [c]
  | c :: d :: t =>
    if c = a ∧ d = b then new ++ replace2 a b new t
    else c :: replace2 a b new (d :: t)

/-- Python `s.replace(ab, new, 1)` for a two-character pattern:
replace only the leftmost occurrence. -/
def replaceOnce2 (a b : Char) (new : Str) : Str → Str
  | [] => []
  | [c] => [c]
  | c :: d :: t =>
    if c = a ∧ d = b then new ++ t
    else c :: replaceOnce2 a b new (d :: t)

/-- Python `s.rsplit(ab, 1)` for a two-character separator: split at the
rightmost occurrence.  `none` models the `ValueError` raised when the result
is unpacked into two variables although the separator does not occur. -/
def rsplit2 (a b : Char) : Str → Option (Str × Str)
  | [] => none
  | c :: cs =>
    match rsplit2 a b cs with
    | some (l, r) => some (c :: l, r)
    | none =>
      match cs with
      | d :: t => if c = a ∧ d = b then some ([], t) else none
      | [] => none

/-- The character Python's `str(n)` uses for the decimal digit `n`. -/
def digitCh : Nat → Char
  | 0 => '0' | 1 => '1' | 2 => '2' | 3 => '3' | 4 => '4'
  | 5 => '5' | 6 => '6' | 7 => '7' | 8 => '8' | _ => '9'

/-- Fuel-driven decimal rendering; `fuel` only bounds the recursion depth and
is irrelevant as soon as `n < fuel` (see `natCharsAux_fuel`). -/
def natCharsAux : Nat → Nat → Str
  | 0, _ => []
  | fuel + 1, n =>
    if n < 10 then [digitCh n] else natCharsAux fuel (n / 10) ++ [digitCh (n % 10)]

/-- Python `str(n)` for a natural number `n` (`'{}'.format(n)`). -/
def natChars (n : Nat) : Str := natCharsAux (n + 1) n

/-- Numeric value of a decimal digit character, `none` otherwise. -/
def charVal (c : Char) : Option Nat :=
  if c = '0' then some 0 else if c = '1' then some 1 else if c = '2' then some 2
  else if c = '3' then some 3 else if c = '4' then some 4 else if c = '5' then some 5
  else if c = '6' then some 6 else if c = '7' then some 7 else if c = '8' then some 8
  else if c = '9' then some 9 else none

def parseNatAux : Str → Nat → Option Nat
  | [], acc => some acc
  | c :: cs, acc =>
    match charVal c with
    | some d => parseNatAux cs (acc * 10 + d)
    | none => none

/-- Python `int(s)` restricted to plain decimal digit strings; `none` models
the `ValueError` raised on the empty or a non-numeric string. -/
def parseNat (s : Str) : Option Nat :=
  match s with
  | [] => none
  | _ => parseNatAux s 0

/-! ### Service-name encoding (knative.py lines 81-89) -/

/--
`KnativeServingBackend._format_service_name`:
```
runtime_name = runtime_name.replace('/', '--').replace(':', '--')
return '{}--{}mb'.format(runtime_name, runtime_memory)
```
-/
def formatServiceName (image : Str) (mem : Nat) : Str :=
  replace1 ':' ['-', '-'] (replace1 '/' ['-', '-'] image)
    ++ ['-', '-'] ++ natChars mem ++ ['m', 'b']

/--
`KnativeServingBackend._unformat_service_name`:
```
runtime_name, memory = service_name.rsplit('--', 1)
image_name = runtime_name.replace('--', '/', 1)
image_name = image_name.replace('--', ':', -1)
return image_name, int(memory.replace('mb', ''))
```
`none` models the exceptions (`ValueError`) the Python code can raise.
-/
def unformatServiceName (s : Str) : Option (Str × Nat) :=
  match rsplit2 '-' '-' s with
  | none => none
  | some (rn, m) =>
    let img := replace2 '-' '-' [':'] (replaceOnce2 '-' '-' ['/'] rn)
    match parseNat (replace2 'm' 'b' [] m) with
    | none => none
    | some mem => some (img, mem)

/-! ### Structural side conditions on image names -/

/-- `true` iff the string does not contain the substring `"--"`. -/
def noDD : Str → Bool
  | [] => true
  | [_] => true
  | c :: d :: t => !(c = '-' ∧ d = '-' : Bool) && noDD (d :: t)

/-- `true` iff the string does not end with the character `'-'`. -/
def notEndsDash : Str → Bool
  | [] => true
  | [c] => !(c = '-' : Bool)
  | _ :: c :: t => notEndsDash (c :: t)

/-- `true` iff the string contains neither `'/'` nor `':'`. -/
def noSep : Str → Bool
  | [] => true
  | c :: t => !(c = '/' : Bool) && !(c = ':' : Bool) && noSep t

/--
Image names on which the encoding is reversible: a bare component, a
`a/b` pair or a `a/b:c` reference, whose components contain no `'/'`, no
`':'` and no `"--"`, and where a component directly followed by a separator
does not end in `'-'`.
-/
def GoodImage (img : Str) : Prop :=
  (noSep img = true ∧ noDD img = true) ∨
  (∃ a b, img = a ++ '/' :: b ∧ noSep a = true ∧ noDD a = true ∧
    notEndsDash a = true ∧ noSep b = true ∧ noDD b = true) ∨
  (∃ a b c, img = a ++ '/' :: (b ++ ':' :: c) ∧ noSep a = true ∧ noDD a = true ∧
    notEndsDash a = true ∧ noSep b = true ∧ noDD b = true ∧
    notEndsDash b = true ∧ noSep c = true ∧ noDD c = true)

/-! ### Single-attempt invocation (knative.py lines 478-529) -/

/-- The observable part of one HTTP POST to the service.  `status` is the
response status code; `body` abstracts `json.loads(resp_data)["activationId"]`:
`none` = the JSON parse raises, `some none` = parsed but no `activationId`
key (a `KeyError`), `some (some a)` = activation id `a`. -/
structure HttpResp where
  status : Nat
  body : Option (Option String)
deriving DecidableEq

/-- The `try:` block of `KnativeServingBackend.invoke` (activation-id path,
`return_result=False`).  The argument is the outcome of the HTTP exchange
(`none` = a transport-level exception), the `Except.error` cases are the
exceptions that reach the `except` clause:
* 200/202 → parse the body and return `data["activationId"]`;
* 404 → `raise Exception("PyWren runtime is not deployed in your k8s cluster")`;
* any other code → log and fall through, which returns `None`. -/
def knInvokeTry (resp : Option HttpResp) : Except String (Option String) :=
  match resp with
  | none => Except.error "transport failure"
  | some r =>
    if r.status = 200 ∨ r.status = 202 then
      match r.body with
      | none => Except.error "json decode error"
      | some none => Except.error "KeyError: activationId"
      | some (some a) => Except.ok (some a)
    else if r.status = 404 then
      Except.error "PyWren runtime is not deployed in your k8s cluster"
    else
      Except.ok none

/-- `KnativeServingBackend.invoke`: the whole `try/except` — every exception
raised inside the `try` block, including the backend's own 404
`ResourceNotDeployed` raise, is caught by the blanket `except`, logged, and
the function returns `None`. -/
def knInvoke (resp : Option HttpResp) : Option String :=
  match knInvokeTry resp with
  | Except.ok v => v
  | Except.error _ => none

/-! ### Retry loop (compute.py lines 34-51, `Compute.invoke`) -/

/-- Python truthiness of the activation id: `not act_id` is true for `None`
and for the empty string. -/
def pyFalsy : Option String → Bool
  | none => true
  | some s => s == ""

/-- The `while` loop of `Compute.invoke`, with `call k` the result of the
`(k+1)`-th call to `self.compute_handler.invoke`.  `fuel` only bounds the
recursion; along every reachable path `attempts + fuel = retries + 1`, so the
fuel never runs out before the guard `attempts < retries` turns false.
`Except.error` models the `IndexError` that `random.choice(self.retry_sleeps)`
raises when the configured sleep list is empty.  The returned pair is
`(act_id, attempts)`. -/
def computeInvokeAux (ir : Bool) (retries : Nat) (sleeps : List Nat)
    (call : Nat → Option String) : Nat → Option String → Nat →
    Except Unit (Option String × Nat)
  | 0, actId, attempts => Except.ok (actId, attempts)
  | fuel + 1, actId, attempts =>
    if pyFalsy actId = true ∧ ir = true ∧ attempts < retries then
      match sleeps with
      | [] => Except.error ()
      | _ :: _ => computeInvokeAux ir retries sleeps call fuel (call attempts) (attempts + 1)
    else Except.ok (actId, attempts)

/-- `Compute.invoke`: first call, then the bounded retry loop.
`ir` is `self.invocation_retry`, `retries` is `self.retries`,
`sleeps` is `self.retry_sleeps`. -/
def computeInvoke (ir : Bool) (retries : Nat) (sleeps : List Nat)
    (call : Nat → Option String) : Except Unit (Option String × Nat) :=
  computeInvokeAux ir retries sleeps call retries (call 0) 1

/-! ### Service readiness watch (knative.py lines 343-365, `_create_service`) -/

/-- One entry of `event['object']['status']['conditions']`. -/
structure KCond where
  ctype : String
  cstatus : String
deriving DecidableEq

/-- `event['object']['status']`: the conditions array plus the optional
`url` field. -/
structure KStatus where
  conditions : List KCond
  url : Option String
deriving DecidableEq

/-- One event of the `watch.Watch().stream(...)` subscription; `status = none`
models an event object without a `status` key. -/
structure KEvent where
  status : Option KStatus
deriving DecidableEq

/-- Line 353-354 of knative.py:
`conditions and conditions[0]['status'] == 'True' and
 conditions[1]['status'] == 'True' and conditions[2]['status'] == 'True'`,
with Python's short-circuit evaluation.  The readiness test is positional:
it looks at indices 0, 1, 2 and never at `type` fields.  `Except.error`
models the `IndexError` raised when an index is accessed although fewer
conditions exist. -/
def condsReady : List KCond → Except Unit Bool
  | [] => Except.ok false
  | [c0] => if c0.cstatus = "True" then Except.error () else Except.ok false
  | [c0, c1] =>
    if c0.cstatus = "True" then
      if c1.cstatus = "True" then Except.error () else Except.ok false
    else Except.ok false
  | c0 :: c1 :: c2 :: _ =>
    Except.ok (c0.cstatus = "True" ∧ c1.cstatus = "True" ∧ c2.cstatus = "True")

/-- Outcome of the watch loop in `_create_service`. -/
inductive CSResult where
  /-- `w.stop()` was reached after the positional readiness test passed and
  `service_url` was bound: the function proceeds with this url. -/
  | ready (url : String)
  /-- the event stream ended without the readiness test ever passing, but a
  url had been observed: the code falls through to line 360 and uses that
  (possibly stale) url exactly as in the ready case. -/
  | fellThrough (url : String)
  /-- `service_url` is referenced at line 360 without ever being assigned:
  an uncaught `NameError`. -/
  | nameError
  /-- an uncaught `IndexError` from `conditions[1]` / `conditions[2]`. -/
  | indexError
deriving DecidableEq

/-- The `for event in w.stream(...)` loop of `_create_service`, with `u` the
current value of the `service_url` local (`none` = not yet assigned).
Events without a `status` key leave all state unchanged. -/
def createServiceWatch : List KEvent → Option String → CSResult
  | [], some u => CSResult.fellThrough u
  | [], none => CSResult.nameError
  | ev :: rest, u =>
    match ev.status with
    | none => createServiceWatch rest u
    | some st =>
      let u' := match st.url with
        | some x => some x
        | none => u
      match condsReady st.conditions with
      | Except.error _ => CSResult.indexError
      | Except.ok true =>
        match u' with
        | some x => CSResult.ready x
        | none => CSResult.nameError
      | Except.ok false => createServiceWatch rest u'

/-! ### Build trigger and registry existence check
(knative.py lines 224-238 and 385-397) -/

/-- Substring test, modelling Python's `in` on strings. -/
def containsSub (pat : Str) : Str → Bool
  | [] => pat.isEmpty
  | c :: cs => pat.isPrefixOf (c :: cs) || containsSub pat cs

/-- `revision = 'latest' if 'SNAPSHOT' in __version__ else __version__`
(line 230 of `_build_docker_image_from_git`). -/
def buildRevision (version : String) : String :=
  if containsSub "SNAPSHOT".toList version.toList then "latest" else version

/-- Whether `_build_docker_image_from_git` skips the build or proceeds with
the Tekton task run. -/
inductive BuildStep where
  | skipped
  | proceeded
deriving DecidableEq

/-- Lines 230-238 of `_build_docker_image_from_git`: query Dockerhub for
`image:revision` only when the configured repo is `docker.io` and the
revision is not `latest`; a 200 answer skips the build, anything else
proceeds to the Tekton build. `registryStatus image revision` is the status
code of the registry existence check. -/
def buildCheck (docker_repo version : String)
    (registryStatus : String → String → Nat) (image : String) : BuildStep :=
  let revision := buildRevision version
  if docker_repo = "docker.io" ∧ ¬revision = "latest" then
    if registryStatus image revision = 200 then BuildStep.skipped
    else BuildStep.proceeded
  else BuildStep.proceeded

/-- Lines 392-397 of `create_runtime`: the build pipeline is triggered
(on the default image) exactly when the requested image is the `'default'`
sentinel or literally the default image name; `some img` = the pipeline is
invoked for image `img`, `none` = no build is attempted. -/
def createRuntimeBuild (defaultImg image : String) : Option String :=
  if image = "default" ∨ image = defaultImg then some defaultImg else none

/-! ### Backend state: cluster services and the host cache
(knative.py `_get_service_host`, `_create_service`, `delete_runtime`,
`delete_all_runtimes`, `list_runtimes`) -/

/-- A knative service resource, with the parts this backend reads:
its `metadata.name`, the `spec.template.metadata.labels['type']` value
(`none` = the key is missing, so reading it raises `KeyError`), and its
`status.url`. -/
structure KService where
  name : Str
  typeLabel : Option String
  url : String
deriving DecidableEq

/-- The knative backend's mutable state: the services present in the
namespace and the in-memory `self.service_hosts` cache. -/
structure BState where
  cluster : List KService
  hosts : List (Str × String)
deriving DecidableEq

/-- Lookup in the `service_hosts` dict. -/
def alookup : List (Str × String) → Str → Option String
  | [], _ => none
  | (k, v) :: t, key => if k = key then some v else alookup t key

/-- Dict assignment `self.service_hosts[name] = host`. -/
def aset : List (Str × String) → Str → String → List (Str × String)
  | [], key, v => [(key, v)]
  | (k, w) :: t, key, v => if k = key then (key, v) :: t else (k, w) :: aset t key v

/-- `svc['status']['url'][7:]`: strip the 7-character `http://` scheme. -/
def urlHost (u : String) : String := String.mk (u.toList.drop 7)

/-- `KnativeServingBackend._get_service_host`: answer from the cache when
possible, otherwise fetch the service object, cache `url[7:]` and return it;
`Except.error` models the exception raised when the service is absent
(the 404 branch). -/
def getServiceHost (st : BState) (name : Str) : Except Unit (BState × String) :=
  match alookup st.hosts name with
  | some h => Except.ok (st, h)
  | none =>
    match st.cluster.find? (fun s => s.name == name) with
    | some svc =>
      Except.ok ({ st with hosts := aset st.hosts name (urlHost svc.url) }, urlHost svc.url)
    | none => Except.error ()

/-- The k8s API's `delete_namespaced_custom_object` on a serving resource:
removes the named service, or raises (`Except.error`, the 404
`ApiException`) when no such service exists. -/
def k8sDeleteService (cluster : List KService) (name : Str) :
    Except Unit (List KService) :=
  if cluster.any (fun s => s.name == name) then
    Except.ok (cluster.filter (fun s => !(s.name == name)))
  else Except.error ()

/-- `KnativeServingBackend.delete_runtime`: compute the service name and
delete it, swallowing any exception (`try: ... except Exception: pass`).
The `service_hosts` cache is not touched. -/
def deleteRuntime (st : BState) (image : Str) (memory : Nat) : BState :=
  match k8sDeleteService st.cluster (formatServiceName image memory) with
  | Except.ok c => { st with cluster := c }
  | Except.error _ => st

/-- The `'all'` filter constant of `list_runtimes`. -/
def allFilter : Str := "all".toList

/-- `KnativeServingBackend.list_runtimes`: walk the namespace's services;
for each one check the `type: pywren-runtime` label, decode the service
name, apply the image filter; any exception inside the per-service `try`
(missing label key, undecodable name) skips the service. -/
def listRuntimes (services : List KService) (filt : Str) : List (Str × Nat) :=
  match services with
  | [] => []
  | s :: rest =>
    let tail := listRuntimes rest filt
    match s.typeLabel with
    | some l =>
      if l = "pywren-runtime" then
        match unformatServiceName s.name with
        | some (img, mem) =>
          if filt = img ∨ filt = allFilter then (img, mem) :: tail else tail
        | none => tail
      else tail
    | none => tail

/-- Modelled from the spec (§4.2): `list_runtimes` "enumerates cluster
resources tagged with this system's ownership label, decodes
`(image, memory)` via the deterministic name encoding"; this is the
spec-side description that `listRuntimes` is compared against. -/
def specOwnedRuntimes (services : List KService) : List (Str × Nat) :=
  services.filterMap (fun s =>
    if s.typeLabel = some "pywren-runtime" then unformatServiceName s.name else none)

/-- `KnativeServingBackend.delete_all_runtimes`: list once, then delete each
returned `(image, memory)` pair in order. -/
def deleteAllRuntimes (st : BState) : BState :=
  (listRuntimes st.cluster allFilter).foldl (fun acc r => deleteRuntime acc r.1 r.2) st

/-- The state effects of `_create_service` (lines 321-363): delete any
existing service resource of that name, create the fresh one, and after the
watch loop store `service_url[7:]` in the host cache.  `svcLabel` stands for
the `labels` block of the `service_res` template (which lives in the config
module, outside this repository's analysed sources) and `service_url` for
the url the watch loop resolved. -/
def createServiceState (st : BState) (image : Str) (memory : Nat)
    (svcLabel : Option String) (service_url : String) : BState :=
  let name := formatServiceName image memory
  { cluster := st.cluster.filter (fun s => !(s.name == name)) ++
      [⟨name, svcLabel, service_url⟩],
    hosts := aset st.hosts name (urlHost service_url) }

end PyWrenKn

namespace PyWrenKn

example : formatServiceName "user/pywren:3.6".toList 256 = "user--pywren--3.6--256mb".toList := by
  decide

example : unformatServiceName "user--pywren--3.6--256mb".toList =
    some ("user/pywren:3.6".toList, 256) := by decide

example : unformatServiceName (formatServiceName "python:3.6".toList 256) =
    some ("python/3.6".toList, 256) := by decide

/-! ### Lemmas about the string primitives -/

theorem replace1_skip (a : Char) (new : Str) {x : Str} (t : Str) (h : a ∉ x) :
    replace1 a new (x ++ t) = x ++ replace1 a new t := by
  induction x with
  | nil => rfl
  | cons c cs ih =>
    rw [List.mem_cons, not_or] at h
    obtain ⟨h1, h2⟩ := h
    have hc : ¬ c = a := fun hca => h1 hca.symm
    simp [replace1, hc, ih h2]

theorem replace1_eq_self (a : Char) (new : Str) {x : Str} (h : a ∉ x) :
    replace1 a new x = x := by
  have := replace1_skip a new [] h
  simpa [replace1] using this

theorem replace1_sep (a : Char) (new : Str) {x y : Str} (hx : a ∉ x) (hy : a ∉ y) :
    replace1 a new (x ++ a :: y) = x ++ new ++ y := by
  rw [replace1_skip a new _ hx]
  simp [replace1, replace1_eq_self a new hy]

theorem noSep_cons {c : Char} {t : Str} :
    noSep (c :: t) = true ↔ ¬c = '/' ∧ ¬c = ':' ∧ noSep t = true := by
  simp [noSep, Bool.and_eq_true, and_assoc]

theorem noSep_not_mem_slash {x : Str} (h : noSep x = true) : '/' ∉ x := by
  induction x with
  | nil => simp
  | cons c cs ih =>
    rw [noSep_cons] at h
    obtain ⟨h1, _, h3⟩ := h
    simp [List.mem_cons]
    exact ⟨fun hc => h1 hc.symm, ih h3⟩

theorem noSep_not_mem_colon {x : Str} (h : noSep x = true) : ':' ∉ x := by
  induction x with
  | nil => simp
  | cons c cs ih =>
    rw [noSep_cons] at h
    obtain ⟨_, h2, h3⟩ := h
    simp [List.mem_cons]
    exact ⟨fun hc => h2 hc.symm, ih h3⟩

theorem rsplit2_extend (a b : Char) (x : Str) {t l r : Str}
    (h : rsplit2 a b t = some (l, r)) :
    rsplit2 a b (x ++ t) = some (x ++ l, r) := by
  induction x with
  | nil => simpa using h
  | cons c cs ih => simp [rsplit2, ih]

theorem rsplit2_cons (a b c : Char) (cs : Str) :
    rsplit2 a b (c :: cs) =
      match rsplit2 a b cs with
      | some (l, r) => some (c :: l, r)
      | none =>
        match cs with
        | d :: t => if c = a ∧ d = b then some ([], t) else none
        | [] => none := rfl

theorem rsplit2_of_not_mem {a : Char} (b : Char) {m : Str} (h : a ∉ m) :
    rsplit2 a b m = none := by
  induction m with
  | nil => rfl
  | cons c cs ih =>
    rw [List.mem_cons, not_or] at h
    have hne : ¬ c = a := fun hc => h.1 hc.symm
    rw [rsplit2_cons, ih h.2]
    cases cs with
    | nil => rfl
    | cons d t => simp [hne]

theorem rsplit2_sep {m : Str} (h : '-' ∉ m) :
    rsplit2 '-' '-' ('-' :: '-' :: m) = some ([], m) := by
  have h1 : rsplit2 '-' '-' m = none := rsplit2_of_not_mem '-' h
  have h2 : rsplit2 '-' '-' ('-' :: m) = none := by
    rw [rsplit2_cons, h1]
    cases m with
    | nil => rfl
    | cons d t =>
      rw [List.mem_cons, not_or] at h
      have hd : ¬ d = '-' := fun hdd => h.1 hdd.symm
      simp [hd]
  rw [rsplit2_cons, h2]
  simp

theorem rsplit2_canonical (x : Str) {m : Str} (h : '-' ∉ m) :
    rsplit2 '-' '-' (x ++ '-' :: '-' :: m) = some (x, m) := by
  have := rsplit2_extend '-' '-' x (rsplit2_sep h)
  simpa using this

theorem noDD_cons_cons {c d : Char} {t : Str} :
    noDD (c :: d :: t) = true ↔ ¬(c = '-' ∧ d = '-') ∧ noDD (d :: t) = true := by
  simp only [noDD, Bool.and_eq_true, Bool.not_eq_true', decide_eq_false_iff_not]

theorem notEndsDash_cons_cons {c d : Char} {t : Str} :
    notEndsDash (c :: d :: t) = notEndsDash (d :: t) := rfl

theorem notEndsDash_cons_of {c : Char} (hc : ¬ c = '-') {y : Str}
    (hy : notEndsDash y = true) : notEndsDash (c :: y) = true := by
  cases y with
  | nil => simp [notEndsDash, hc]
  | cons d t => rw [notEndsDash_cons_cons]; exact hy

theorem notEndsDash_append_cons (x : Str) (c : Char) (y : Str) :
    notEndsDash (x ++ c :: y) = notEndsDash (c :: y) := by
  induction x with
  | nil => rfl
  | cons e es ih =>
    cases es with
    | nil => rfl
    | cons f fs => simpa [notEndsDash_cons_cons] using ih

theorem noDD_append_sep {a : Str} {s : Char} {b : Str} (ha : noDD a = true)
    (hs : ¬ s = '-') (hb : noDD b = true) : noDD (a ++ s :: b) = true := by
  induction a with
  | nil =>
    cases b with
    | nil => rfl
    | cons d t =>
      rw [List.nil_append, noDD_cons_cons]
      exact ⟨fun hp => hs hp.1, hb⟩
  | cons c cs ih =>
    cases cs with
    | nil =>
      rw [List.cons_append, List.nil_append, noDD_cons_cons]
      refine ⟨fun hp => hs hp.2, ?_⟩
      exact ih rfl
    | cons d cs' =>
      rw [noDD_cons_cons] at ha
      rw [List.cons_append, List.cons_append, noDD_cons_cons]
      refine ⟨ha.1, ?_⟩
      have := ih ha.2
      simpa using this

theorem replaceOnce2_skip (new rest : Str) {x : Str} (hd : noDD x = true)
    (he : notEndsDash x = true) :
    replaceOnce2 '-' '-' new (x ++ '-' :: '-' :: rest) = x ++ new ++ rest := by
  induction x with
  | nil => simp [replaceOnce2]
  | cons c cs ih =>
    cases cs with
    | nil =>
      have hc : ¬ c = '-' := by simpa [notEndsDash] using he
      simp [replaceOnce2, hc]
    | cons d t =>
      rw [noDD_cons_cons] at hd
      rw [notEndsDash_cons_cons] at he
      have h2 := ih hd.2 he
      simp only [List.cons_append, List.append_assoc] at h2 ⊢
      simp only [replaceOnce2, if_neg hd.1, h2]

theorem replace2_skipDD (new rest : Str) {x : Str} (hd : noDD x = true)
    (he : notEndsDash x = true) :
    replace2 '-' '-' new (x ++ '-' :: '-' :: rest) =
      x ++ new ++ replace2 '-' '-' new rest := by
  induction x with
  | nil => simp [replace2]
  | cons c cs ih =>
    cases cs with
    | nil =>
      have hc : ¬ c = '-' := by simpa [notEndsDash] using he
      simp [replace2, hc]
    | cons d t =>
      rw [noDD_cons_cons] at hd
      rw [notEndsDash_cons_cons] at he
      have h2 := ih hd.2 he
      simp only [List.cons_append, List.append_assoc] at h2 ⊢
      simp only [replace2, if_neg hd.1, h2]

theorem replace2_eq_self (new : Str) {x : Str} (hd : noDD x = true) :
    replace2 '-' '-' new x = x := by
  induction x with
  | nil => rfl
  | cons c cs ih =>
    cases cs with
    | nil => rfl
    | cons d t =>
      rw [noDD_cons_cons] at hd
      simp only [replace2, if_neg hd.1]
      simp [ih hd.2]

theorem replaceOnce2_eq_self (new : Str) {x : Str} (hd : noDD x = true) :
    replaceOnce2 '-' '-' new x = x := by
  induction x with
  | nil => rfl
  | cons c cs ih =>
    cases cs with
    | nil => rfl
    | cons d t =>
      rw [noDD_cons_cons] at hd
      simp only [replaceOnce2, if_neg hd.1]
      simp [ih hd.2]

theorem replace2_skip_not_mem (a b : Char) (new : Str) {x : Str} (t : Str)
    (h : a ∉ x) : replace2 a b new (x ++ t) = x ++ replace2 a b new t := by
  induction x with
  | nil => rfl
  | cons c cs ih =>
    rw [List.mem_cons, not_or] at h
    have hc : ¬ c = a := fun hca => h.1 hca.symm
    cases cs with
    | nil =>
      cases t with
      | nil => rfl
      | cons u us => simp [replace2, hc]
    | cons d cs' =>
      have hguard : ¬(c = a ∧ d = b) := fun hp => hc hp.1
      have h2 := ih h.2
      simp only [List.cons_append, List.append_assoc] at h2 ⊢
      simp only [replace2, if_neg hguard, h2]

/-! ### Decimal rendering and parsing lemmas -/

theorem natCharsAux_succ (fuel n : Nat) :
    natCharsAux (fuel + 1) n =
      if n < 10 then [digitCh n] else natCharsAux fuel (n / 10) ++ [digitCh (n % 10)] := rfl

theorem natCharsAux_fuel {n : Nat} : ∀ {f1 f2 : Nat}, n < f1 → n < f2 →
    natCharsAux f1 n = natCharsAux f2 n := by
  induction n using Nat.strong_induction_on with
  | _ n ih =>
    intro f1 f2 h1 h2
    cases f1 with
    | zero => omega
    | succ k1 =>
      cases f2 with
      | zero => omega
      | succ k2 =>
        by_cases h : n < 10
        · simp [natCharsAux_succ, h]
        · have hdiv : n / 10 < n := Nat.div_lt_self (by omega) (by omega)
          have e1 : natCharsAux k1 (n / 10) = natCharsAux (n / 10 + 1) (n / 10) :=
            ih (n / 10) hdiv (by omega) (Nat.lt_succ_self _)
          have e2 : natCharsAux k2 (n / 10) = natCharsAux (n / 10 + 1) (n / 10) :=
            ih (n / 10) hdiv (by omega) (Nat.lt_succ_self _)
          rw [natCharsAux_succ, natCharsAux_succ, if_neg h, if_neg h, e1, e2]

theorem natChars_eq (n : Nat) :
    natChars n =
      if n < 10 then [digitCh n] else natChars (n / 10) ++ [digitCh (n % 10)] := by
  by_cases h : n < 10
  · simp [natChars, natCharsAux_succ, h]
  · have hdiv : n / 10 < n := Nat.div_lt_self (by omega) (by omega)
    rw [if_neg h]
    show natCharsAux (n + 1) n = natChars (n / 10) ++ [digitCh (n % 10)]
    rw [natCharsAux_succ, if_neg h, natCharsAux_fuel hdiv (Nat.lt_succ_self _)]
    rfl

theorem natChars_ne_nil (n : Nat) : natChars n ≠ [] := by
  rw [natChars_eq]
  by_cases h : n < 10 <;> simp [h]

theorem charVal_digitCh {d : Nat} (h : d < 10) : charVal (digitCh d) = some d := by
  interval_cases d <;> rfl

theorem digitCh_ne_dash {d : Nat} (h : d < 10) : digitCh d ≠ '-' := by
  interval_cases d <;> decide

theorem digitCh_ne_m {d : Nat} (h : d < 10) : digitCh d ≠ 'm' := by
  interval_cases d <;> decide

theorem natChars_all_digits {n : Nat} :
    ∀ c ∈ natChars n, ∃ d, d < 10 ∧ c = digitCh d := by
  induction n using Nat.strong_induction_on with
  | _ n ih =>
    intro c hc
    rw [natChars_eq] at hc
    by_cases h : n < 10
    · rw [if_pos h] at hc
      simp at hc
      exact ⟨n, h, hc⟩
    · rw [if_neg h] at hc
      have hn : 0 < n := by omega
      have hdiv : n / 10 < n := Nat.div_lt_self hn (by omega)
      rw [List.mem_append] at hc
      rcases hc with hc | hc
      · exact ih (n / 10) hdiv c hc
      · simp at hc
        exact ⟨n % 10, Nat.mod_lt _ (by omega), hc⟩

theorem dash_not_mem_natChars (n : Nat) : '-' ∉ natChars n := by
  intro hc
  obtain ⟨d, hd, hcd⟩ := natChars_all_digits '-' hc
  exact digitCh_ne_dash hd hcd.symm

theorem m_not_mem_natChars (n : Nat) : 'm' ∉ natChars n := by
  intro hc
  obtain ⟨d, hd, hcd⟩ := natChars_all_digits 'm' hc
  exact digitCh_ne_m hd hcd.symm

theorem parseNatAux_append (xs ys : Str) :
    ∀ acc, parseNatAux (xs ++ ys) acc =
      match parseNatAux xs acc with
      | some a => parseNatAux ys a
      | none => none := by
  induction xs with
  | nil => intro acc; rfl
  | cons c cs ih =>
    intro acc
    cases hc : charVal c with
    | none => simp [parseNatAux, hc]
    | some d => simp [parseNatAux, hc, ih]

theorem parseNatAux_natChars (n : Nat) :
    ∀ acc, parseNatAux (natChars n) acc =
      some (acc * 10 ^ (natChars n).length + n) := by
  induction n using Nat.strong_induction_on with
  | _ n ih =>
    intro acc
    rw [natChars_eq]
    by_cases h : n < 10
    · rw [if_pos h]
      simp [parseNatAux, charVal_digitCh h]
    · rw [if_neg h]
      have hn : 0 < n := by omega
      have hdiv : n / 10 < n := Nat.div_lt_self hn (by omega)
      rw [parseNatAux_append]
      rw [ih (n / 10) hdiv acc]
      simp only [parseNatAux, charVal_digitCh (Nat.mod_lt n (by omega : 0 < 10))]
      congr 1
      have hmod : 10 * (n / 10) + n % 10 = n := Nat.div_add_mod n 10
      have hlen : ((natChars (n / 10)) ++ [digitCh (n % 10)]).length =
          (natChars (n / 10)).length + 1 := by simp
      rw [hlen, pow_succ]
      ring_nf
      omega

theorem parseNat_natChars (n : Nat) : parseNat (natChars n) = some n := by
  have h1 : parseNat (natChars n) = parseNatAux (natChars n) 0 := by
    rcases hc : natChars n with _ | ⟨c, cs⟩
    · exact absurd hc (natChars_ne_nil n)
    · rfl
  rw [h1, parseNatAux_natChars n 0]
  simp

/-! ### The round-trip of the service-name encoding -/

/-- Unfolding `_unformat_service_name ∘ _format_service_name`: the memory
component always survives the round trip; the image component goes through
the four `replace` passes. -/
theorem unformat_format (img : Str) (mem : Nat) :
    unformatServiceName (formatServiceName img mem) =
      some (replace2 '-' '-' [':'] (replaceOnce2 '-' '-' ['/']
        (replace1 ':' ['-', '-'] (replace1 '/' ['-', '-'] img))), mem) := by
  have hm0 : '-' ∉ natChars mem ++ ['m', 'b'] := by
    simp only [List.mem_append, not_or]
    exact ⟨dash_not_mem_natChars mem, by decide⟩
  have hsplit := rsplit2_canonical (replace1 ':' ['-', '-'] (replace1 '/' ['-', '-'] img)) hm0
  have hmem : replace2 'm' 'b' [] (natChars mem ++ ['m', 'b']) = natChars mem := by
    have := replace2_skip_not_mem 'm' 'b' [] ['m', 'b'] (m_not_mem_natChars mem)
    simpa [replace2] using this
  have hfmt : formatServiceName img mem =
      replace1 ':' ['-', '-'] (replace1 '/' ['-', '-'] img) ++
        '-' :: '-' :: (natChars mem ++ ['m', 'b']) := by
    simp [formatServiceName]
  rw [hfmt]
  simp only [unformatServiceName]
  rw [hsplit]
  simp only [hmem, parseNat_natChars]

/-- C1 (amended): the round trip `_unformat_service_name ∘ _format_service_name`
returns the original `(image, memory)` pair for images of the shape `repo`,
`a/b` or `a/b:c` whose components contain no `'/'`, no `':'` and no `"--"`,
and where a component directly followed by a separator does not end in `'-'`.
The universal claim over all `"--"`-free images is false — an image whose
first separator is `':'`, such as `"python:3.6"`, decodes to a different
pair — and the encoding itself performs no validation.  The class proved
here is sufficient, not exact: some images outside it (e.g. `"a/b:c:d"`)
also round-trip. -/
theorem C1_roundtrip_amended (img : Str) (mem : Nat) (h : GoodImage img) :
    unformatServiceName (formatServiceName img mem) = some (img, mem) := by
  rw [unformat_format]
  rcases h with ⟨hs, hd⟩ | ⟨a, b, rfl, hsa, hda, hea, hsb, hdb⟩ |
    ⟨a, b, c, rfl, hsa, hda, hea, hsb, hdb, heb, hsc, hdc⟩
  · rw [replace1_eq_self '/' _ (noSep_not_mem_slash hs),
      replace1_eq_self ':' _ (noSep_not_mem_colon hs),
      replaceOnce2_eq_self _ hd, replace2_eq_self _ hd]
  · rw [replace1_sep '/' _ (noSep_not_mem_slash hsa) (noSep_not_mem_slash hsb)]
    have hcolon : ':' ∉ a ++ ['-', '-'] ++ b := by
      simp only [List.mem_append, not_or]
      exact ⟨⟨noSep_not_mem_colon hsa, by decide⟩, noSep_not_mem_colon hsb⟩
    rw [replace1_eq_self ':' _ hcolon]
    have hre : a ++ ['-', '-'] ++ b = a ++ '-' :: '-' :: b := by simp
    rw [hre, replaceOnce2_skip ['/'] b hda hea]
    have hre2 : a ++ ['/'] ++ b = a ++ '/' :: b := by simp
    rw [hre2, replace2_eq_self _ (noDD_append_sep hda (by decide) hdb)]
  · have hslashy : '/' ∉ b ++ ':' :: c := by
      simp only [List.mem_append, List.mem_cons, not_or]
      exact ⟨noSep_not_mem_slash hsb, by decide, noSep_not_mem_slash hsc⟩
    rw [replace1_sep '/' _ (noSep_not_mem_slash hsa) hslashy]
    have hre : a ++ ['-', '-'] ++ (b ++ ':' :: c) = (a ++ ['-', '-'] ++ b) ++ ':' :: c := by
      simp
    have hcolx : ':' ∉ a ++ ['-', '-'] ++ b := by
      simp only [List.mem_append, not_or]
      exact ⟨⟨noSep_not_mem_colon hsa, by decide⟩, noSep_not_mem_colon hsb⟩
    rw [hre, replace1_sep ':' _ hcolx (noSep_not_mem_colon hsc)]
    have hre2 : (a ++ ['-', '-'] ++ b) ++ ['-', '-'] ++ c =
        a ++ '-' :: '-' :: (b ++ '-' :: '-' :: c) := by simp
    rw [hre2, replaceOnce2_skip ['/'] _ hda hea]
    have hre3 : a ++ ['/'] ++ (b ++ '-' :: '-' :: c) = (a ++ '/' :: b) ++ '-' :: '-' :: c := by
      simp
    have hend : notEndsDash (a ++ '/' :: b) = true := by
      rw [notEndsDash_append_cons]
      exact notEndsDash_cons_of (by decide) heb
    rw [hre3, replace2_skipDD [':'] c (noDD_append_sep hda (by decide) hdb) hend,
      replace2_eq_self _ hdc]
    simp

/-! ### Retry-loop lemmas -/

/-- Along any run of the retry loop that ends normally, the final `attempts`
counter never exceeds `retries` once it starts at or below it. -/
theorem computeInvokeAux_attempts_le (ir : Bool) (retries : Nat) (sleeps : List Nat)
    (call : Nat → Option String) :
    ∀ (fuel : Nat) (actId : Option String) (attempts : Nat), attempts ≤ retries →
      ∀ r, computeInvokeAux ir retries sleeps call fuel actId attempts = Except.ok r →
        r.2 ≤ retries := by
  intro fuel
  induction fuel with
  | zero =>
    intro actId attempts h r hr
    simp only [computeInvokeAux] at hr
    cases hr
    exact h
  | succ f ih =>
    intro actId attempts h r hr
    by_cases hg : pyFalsy actId = true ∧ ir = true ∧ attempts < retries
    · simp only [computeInvokeAux, if_pos hg] at hr
      cases sleeps with
      | nil => cases hr
      | cons s ss => exact ih (call attempts) (attempts + 1) (by omega) r hr
    · simp only [computeInvokeAux, if_neg hg] at hr
      cases hr
      exact h

/-! ### Watch-loop lemmas -/

/-- The watch loop reports `ready` only if some consumed event carries a
status whose conditions pass the (positional) readiness test. -/
theorem createServiceWatch_ready_mem :
    ∀ (evs : List KEvent) (u : Option String) (url : String),
      createServiceWatch evs u = CSResult.ready url →
      ∃ ev ∈ evs, ∃ st, ev.status = some st ∧
        condsReady st.conditions = Except.ok true := by
  intro evs
  induction evs with
  | nil => intro u url h; cases u <;> simp [createServiceWatch] at h
  | cons ev rest ih =>
    intro u url h
    rw [createServiceWatch] at h
    rcases hst : ev.status with _ | st
    · rw [hst] at h
      obtain ⟨ev', hmem, st', hst', hok⟩ := ih u url h
      exact ⟨ev', List.mem_cons_of_mem _ hmem, st', hst', hok⟩
    · rw [hst] at h
      rcases hcr : condsReady st.conditions with e | b
      · simp only [hcr] at h
        exact CSResult.noConfusion h
      · rcases b with _ | _
        · simp only [hcr] at h
          obtain ⟨ev', hmem, st', hst', hok⟩ := ih _ url h
          exact ⟨ev', List.mem_cons_of_mem _ hmem, st', hst', hok⟩
        · exact ⟨ev, List.mem_cons_self _ _, st, hst, hcr⟩

/-! ### Host-cache and state lemmas -/

theorem alookup_aset_self (m : List (Str × String)) (k : Str) (v : String) :
    alookup (aset m k v) k = some v := by
  induction m with
  | nil => simp [aset, alookup]
  | cons p t ih =>
    obtain ⟨k', v'⟩ := p
    by_cases h : k' = k
    · simp [aset, alookup, h]
    · simp [aset, alookup, h, ih]

/-- `delete_runtime` always leaves the state equal to the one with the named
service filtered out (whether or not it was present), and the host cache
untouched. -/
theorem deleteRuntime_eq_filter (st : BState) (image : Str) (memory : Nat) :
    deleteRuntime st image memory =
      ⟨st.cluster.filter
        (fun s => !(s.name == formatServiceName image memory)), st.hosts⟩ := by
  by_cases h : st.cluster.any (fun s => s.name == formatServiceName image memory) = true
  · simp only [deleteRuntime, k8sDeleteService, if_pos h]
  · simp only [deleteRuntime, k8sDeleteService, if_neg h]
    have hall : ∀ s ∈ st.cluster, (!(s.name == formatServiceName image memory)) = true := by
      intro s hs
      rcases hb : s.name == formatServiceName image memory with _ | _
      · simp
      · exact absurd (List.any_eq_true.mpr ⟨s, hs, hb⟩) h
    rw [List.filter_eq_self.mpr hall]

theorem deleteAll_foldl_cluster (rs : List (Str × Nat)) :
    ∀ st : BState,
      rs.foldl (fun acc r => deleteRuntime acc r.1 r.2) st =
        ⟨st.cluster.filter
          (fun s => !((rs.map (fun r => formatServiceName r.1 r.2)).elem s.name)),
          st.hosts⟩ := by
  induction rs with
  | nil =>
    intro st
    simp [List.foldl]
  | cons r rs' ih =>
    intro st
    rw [List.foldl_cons, ih, deleteRuntime_eq_filter]
    simp only [List.filter_filter]
    congr 1
    apply List.filter_congr
    intro s _
    rcases h1 : s.name == formatServiceName r.1 r.2 with _ | _ <;>
      simp [List.elem_cons, h1]

/-- `delete_all_runtimes` removes exactly the services whose name equals the
re-encoding of some listed `(image, memory)` pair; the host cache is
untouched. -/
theorem deleteAllRuntimes_spec (st : BState) :
    deleteAllRuntimes st =
      ⟨st.cluster.filter
        (fun s => !(((listRuntimes st.cluster allFilter).map
          (fun r => formatServiceName r.1 r.2)).elem s.name)), st.hosts⟩ := by
  rw [deleteAllRuntimes, deleteAll_foldl_cluster]

/-- Membership characterization of `list_runtimes`. -/
theorem listRuntimes_mem (filt : Str) (i : Str) (m : Nat) :
    ∀ services : List KService,
      (i, m) ∈ listRuntimes services filt ↔
        ∃ s ∈ services, s.typeLabel = some "pywren-runtime" ∧
          unformatServiceName s.name = some (i, m) ∧ (filt = i ∨ filt = allFilter) := by
  intro services
  induction services with
  | nil => simp [listRuntimes]
  | cons s rest ih =>
    rcases hl : s.typeLabel with _ | l
    · have he : listRuntimes (s :: rest) filt = listRuntimes rest filt := by
        simp [listRuntimes, hl]
      rw [he, ih]
      constructor
      · rintro ⟨s', hmem, hrest⟩
        exact ⟨s', List.mem_cons_of_mem _ hmem, hrest⟩
      · rintro ⟨s', hmem, hlab, hrest⟩
        rcases List.mem_cons.mp hmem with rfl | hmem'
        · rw [hl] at hlab; simp at hlab
        · exact ⟨s', hmem', hlab, hrest⟩
    · by_cases hpw : l = "pywren-runtime"
      · subst hpw
        rcases hu : unformatServiceName s.name with _ | p
        · have he : listRuntimes (s :: rest) filt = listRuntimes rest filt := by
            simp [listRuntimes, hl, hu]
          rw [he, ih]
          constructor
          · rintro ⟨s', hmem, hrest⟩
            exact ⟨s', List.mem_cons_of_mem _ hmem, hrest⟩
          · rintro ⟨s', hmem, hlab, hdec, hfl⟩
            rcases List.mem_cons.mp hmem with rfl | hmem'
            · rw [hu] at hdec; simp at hdec
            · exact ⟨s', hmem', hlab, hdec, hfl⟩
        · obtain ⟨i', m'⟩ := p
          by_cases hf : filt = i' ∨ filt = allFilter
          · have he : listRuntimes (s :: rest) filt = (i', m') :: listRuntimes rest filt := by
              simp [listRuntimes, hl, hu, hf]
            rw [he]
            constructor
            · intro hin
              rcases List.mem_cons.mp hin with heq | hin'
              · obtain ⟨rfl, rfl⟩ : i = i' ∧ m = m' := by simpa using heq
                exact ⟨s, List.mem_cons_self _ _, hl, hu, hf⟩
              · obtain ⟨s', hmem, hrest⟩ := ih.mp hin'
                exact ⟨s', List.mem_cons_of_mem _ hmem, hrest⟩
            · rintro ⟨s', hmem, hlab, hdec, hfl⟩
              rcases List.mem_cons.mp hmem with rfl | hmem'
              · rw [hu] at hdec
                obtain ⟨rfl, rfl⟩ : i' = i ∧ m' = m := by simpa using hdec
                exact List.mem_cons_self _ _
              · exact List.mem_cons_of_mem _ (ih.mpr ⟨s', hmem', hlab, hdec, hfl⟩)
          · have he : listRuntimes (s :: rest) filt = listRuntimes rest filt := by
              simp [listRuntimes, hl, hu, hf]
            rw [he, ih]
            constructor
            · rintro ⟨s', hmem, hrest⟩
              exact ⟨s', List.mem_cons_of_mem _ hmem, hrest⟩
            · rintro ⟨s', hmem, hlab, hdec, hfl⟩
              rcases List.mem_cons.mp hmem with rfl | hmem'
              · rw [hu] at hdec
                obtain ⟨rfl, rfl⟩ : i' = i ∧ m' = m := by simpa using hdec
                exact absurd hfl hf
              · exact ⟨s', hmem', hlab, hdec, hfl⟩
      · have he : listRuntimes (s :: rest) filt = listRuntimes rest filt := by
          simp [listRuntimes, hl, hpw]
        rw [he, ih]
        constructor
        · rintro ⟨s', hmem, hrest⟩
          exact ⟨s', List.mem_cons_of_mem _ hmem, hrest⟩
        · rintro ⟨s', hmem, hlab, hrest⟩
          rcases List.mem_cons.mp hmem with rfl | hmem'
          · rw [hl] at hlab
            have hll : l = "pywren-runtime" := by simpa using hlab
            exact absurd hll hpw
          · exact ⟨s', hmem', hlab, hrest⟩

/-- Listing a filtered-down cluster yields a subset of the original list. -/
theorem listRuntimes_filter_subset (p : KService → Bool) (cluster : List KService)
    (filt : Str) {i : Str} {m : Nat}
    (h : (i, m) ∈ listRuntimes (cluster.filter p) filt) :
    (i, m) ∈ listRuntimes cluster filt := by
  rw [listRuntimes_mem] at h ⊢
  obtain ⟨s, hmem, hrest⟩ := h
  exact ⟨s, (List.mem_filter.mp hmem).1, hrest⟩

/-! ### Claim theorems -/

/-- C1 (counterexample): `"python:3.6"` contains no `"--"`, yet decoding its
encoding with memory 256 yields `("python/3.6", 256)`, not the original
pair — the first replaced separator is always decoded as `'/'`. -/
theorem C1_counterexample :
    noDD "python:3.6".toList = true ∧
    unformatServiceName (formatServiceName "python:3.6".toList 256) =
      some ("python/3.6".toList, 256) ∧
    unformatServiceName (formatServiceName "python:3.6".toList 256) ≠
      some ("python:3.6".toList, 256) := by
  refine ⟨by decide, by decide, by decide⟩

/-- C1 (witness): a concrete image in the good class round-trips. -/
theorem C1_roundtrip_witness :
    GoodImage "user/pywren:3.6".toList ∧
    unformatServiceName (formatServiceName "user/pywren:3.6".toList 256) =
      some ("user/pywren:3.6".toList, 256) := by
  have hg : GoodImage "user/pywren:3.6".toList :=
    Or.inr (Or.inr ⟨"user".toList, "pywren".toList, "3.6".toList, by decide, by decide,
      by decide, by decide, by decide, by decide, by decide, by decide, by decide⟩)
  exact ⟨hg, C1_roundtrip_amended _ 256 hg⟩

/-- C2 (code_bug evidence): on a 404 response, the `try` body of
`KnativeServingBackend.invoke` raises the "PyWren runtime is not deployed"
exception, but the method's own blanket `except` swallows it and returns
`None`; `Compute.invoke` with retry enabled and `retries = 3` then performs
3 attempts instead of failing fatally without retrying. -/
theorem C2_404_swallowed_and_retried :
    knInvokeTry (some ⟨404, some none⟩) =
      Except.error "PyWren runtime is not deployed in your k8s cluster" ∧
    knInvoke (some ⟨404, some none⟩) = none ∧
    computeInvoke true 3 [1] (fun _ => knInvoke (some ⟨404, some none⟩)) =
      Except.ok (none, 3) := by
  refine ⟨rfl, rfl, rfl⟩

/-- C3: with retry enabled, `retries = 3` and a non-empty configured sleep
list: if every attempt yields an absent activation id, `Compute.invoke`
performs exactly 3 attempts and returns the absent id rather than raising;
if the first attempt yields a present (truthy) id it performs exactly 1
attempt; and a normal return never reports more than 3 attempts. -/
theorem C3_retry_bounds (call : Nat → Option String) (sleeps : List Nat)
    (hs : sleeps ≠ []) :
    ((∀ n, call n = none) →
      computeInvoke true 3 sleeps call = Except.ok (none, 3)) ∧
    (∀ a, call 0 = some a → ¬a = "" →
      computeInvoke true 3 sleeps call = Except.ok (some a, 1)) ∧
    (∀ r, computeInvoke true 3 sleeps call = Except.ok r → r.2 ≤ 3) := by
  obtain ⟨s, ss, rfl⟩ := List.exists_cons_of_ne_nil hs
  refine ⟨?_, ?_, ?_⟩
  · intro h
    simp [computeInvoke, computeInvokeAux, h, pyFalsy]
  · intro a h0 hne
    simp [computeInvoke, computeInvokeAux, h0, pyFalsy, hne]
  · intro r hr
    exact computeInvokeAux_attempts_le true 3 (s :: ss) call 3 (call 0) 1 (by omega) r hr

/-- C3 (witness): with all attempts absent, exactly 3 attempts happen and
the result is absent. -/
theorem C3_retry_bounds_witness :
    computeInvoke true 3 [1] (fun _ => none) = Except.ok (none, 3) :=
  (C3_retry_bounds (fun _ => none) [1] (by decide)).1 (fun _ => rfl)

/-- C4 (counterexample): the readiness check of `_create_service` is
positional, not type-based: two condition arrays containing exactly the same
(type, status) pairs in different orders get different verdicts, and the
accepted one has its `Ready`-typed condition reporting `"False"`. -/
theorem C4_counterexample :
    List.Perm
      [(⟨"Ready", "False"⟩ : KCond), ⟨"ConfigurationsReady", "True"⟩,
        ⟨"RoutesReady", "True"⟩, ⟨"Extra", "True"⟩]
      [(⟨"ConfigurationsReady", "True"⟩ : KCond), ⟨"RoutesReady", "True"⟩,
        ⟨"Extra", "True"⟩, ⟨"Ready", "False"⟩] ∧
    condsReady
      [(⟨"Ready", "False"⟩ : KCond), ⟨"ConfigurationsReady", "True"⟩,
        ⟨"RoutesReady", "True"⟩, ⟨"Extra", "True"⟩] = Except.ok false ∧
    condsReady
      [(⟨"ConfigurationsReady", "True"⟩ : KCond), ⟨"RoutesReady", "True"⟩,
        ⟨"Extra", "True"⟩, ⟨"Ready", "False"⟩] = Except.ok true := by
  refine ⟨by decide, rfl, rfl⟩

/-- C4 (amended): the watcher evaluates readiness by position, not by type:
a status event passes exactly when its conditions array has at least three
entries and the entries at indices 0, 1 and 2 all carry status `"True"`;
the `type` fields are never consulted. -/
theorem C4_positional_readiness (conds : List KCond) :
    condsReady conds = Except.ok true ↔
      ∃ c0 c1 c2 rest, conds = c0 :: c1 :: c2 :: rest ∧
        c0.cstatus = "True" ∧ c1.cstatus = "True" ∧ c2.cstatus = "True" := by
  rcases conds with _ | ⟨c0, _ | ⟨c1, _ | ⟨c2, rest⟩⟩⟩
  · simp [condsReady]
  · by_cases h : c0.cstatus = "True" <;> simp [condsReady, h]
  · by_cases h0 : c0.cstatus = "True" <;> by_cases h1 : c1.cstatus = "True" <;>
      simp [condsReady, h0, h1]
  · simp only [condsReady, Except.ok.injEq, decide_eq_true_eq]
    constructor
    · rintro ⟨h0, h1, h2⟩
      exact ⟨c0, c1, c2, rest, rfl, h0, h1, h2⟩
    · rintro ⟨d0, d1, d2, r, heq, h0, h1, h2⟩
      obtain ⟨rfl, rfl, rfl, rfl⟩ : c0 = d0 ∧ c1 = d1 ∧ c2 = d2 ∧ rest = r := by
        simpa using heq
      exact ⟨h0, h1, h2⟩

/-- C5 (counterexample): the service readiness wait reports `ready` on an
event whose conditions include an explicit `Ready`-typed condition with
status `"False"`: the positional check passes on the first three entries,
so an explicit failure condition neither ends the wait with failure nor
prevents success. -/
theorem C5_counterexample :
    createServiceWatch
      [⟨some ⟨[⟨"ConfigurationsReady", "True"⟩, ⟨"RoutesReady", "True"⟩,
        ⟨"Extra", "True"⟩, ⟨"Ready", "False"⟩], some "http://svc.example.com"⟩⟩] none =
      CSResult.ready "http://svc.example.com" ∧
    (⟨"Ready", "False"⟩ : KCond) ∈
      [(⟨"ConfigurationsReady", "True"⟩ : KCond), ⟨"RoutesReady", "True"⟩,
        ⟨"Extra", "True"⟩, ⟨"Ready", "False"⟩] := by
  refine ⟨by decide, by decide⟩

/-- C5 (amended): the `_create_service` wait reports `ready` only when some
consumed event carries a status whose first three conditions are all
`"True"` (the positional check); events without a status are skipped with no
state change; there is no deadline and no failure handling — when the event
stream ends, the call falls through and uses the last observed url as if the
service were ready, or hits a `NameError` if none was ever seen. -/
theorem C5_watch_semantics :
    (∀ (evs : List KEvent) (u : Option String) (url : String),
      createServiceWatch evs u = CSResult.ready url →
      ∃ ev ∈ evs, ∃ st, ev.status = some st ∧
        condsReady st.conditions = Except.ok true) ∧
    (∀ (evs : List KEvent) (u : Option String),
      createServiceWatch (⟨none⟩ :: evs) u = createServiceWatch evs u) ∧
    (∀ u : String, createServiceWatch [] (some u) = CSResult.fellThrough u) ∧
    createServiceWatch [] none = CSResult.nameError :=
  ⟨createServiceWatch_ready_mem, fun _ _ => rfl, fun _ => rfl, rfl⟩

/-- C5 (witness): the ready-only-after-a-passing-event implication applied
to a concrete one-event stream. -/
theorem C5_watch_semantics_witness :
    ∃ ev ∈ [(⟨some ⟨[⟨"ConfigurationsReady", "True"⟩, ⟨"RoutesReady", "True"⟩,
        ⟨"Extra", "True"⟩, ⟨"Ready", "True"⟩], some "http://w.example.com"⟩⟩ : KEvent)],
      ∃ st, ev.status = some st ∧ condsReady st.conditions = Except.ok true :=
  C5_watch_semantics.1
    [⟨some ⟨[⟨"ConfigurationsReady", "True"⟩, ⟨"RoutesReady", "True"⟩,
      ⟨"Extra", "True"⟩, ⟨"Ready", "True"⟩], some "http://w.example.com"⟩⟩]
    none "http://w.example.com" (by decide)

/-- C6 (counterexample): after a successful host resolution fills the cache,
`delete_runtime` removes the cluster resource but leaves the cache entry in
place — the cache still answers with the stale host for the deleted
service's name. -/
theorem C6_counterexample :
    getServiceHost
        ⟨[⟨"a--256mb".toList, some "pywren-runtime", "http://h.example"⟩], []⟩
        (formatServiceName "a".toList 256) =
      Except.ok (⟨[⟨"a--256mb".toList, some "pywren-runtime", "http://h.example"⟩],
        [("a--256mb".toList, "h.example")]⟩, "h.example") ∧
    (deleteRuntime ⟨[⟨"a--256mb".toList, some "pywren-runtime", "http://h.example"⟩],
        [("a--256mb".toList, "h.example")]⟩ "a".toList 256).cluster = [] ∧
    alookup (deleteRuntime ⟨[⟨"a--256mb".toList, some "pywren-runtime", "http://h.example"⟩],
        [("a--256mb".toList, "h.example")]⟩ "a".toList 256).hosts
      (formatServiceName "a".toList 256) = some "h.example" := by
  refine ⟨rfl, by decide, by decide⟩

/-- C6 (amended): the `service_hosts` entry for a service name is created by
the first successful resolution in `_get_service_host` and overwritten when
`_create_service` recreates the service; `delete_runtime` never touches the
cache, so a stale entry survives deletion. -/
theorem C6_cache_lifecycle :
    (∀ (st : BState) (name : Str) (st' : BState) (h : String),
      getServiceHost st name = Except.ok (st', h) →
      alookup st'.hosts name = some h) ∧
    (∀ (st : BState) (image : Str) (memory : Nat) (lbl : Option String) (url : String),
      alookup (createServiceState st image memory lbl url).hosts
        (formatServiceName image memory) = some (urlHost url)) ∧
    (∀ (st : BState) (image : Str) (memory : Nat),
      (deleteRuntime st image memory).hosts = st.hosts) := by
  refine ⟨?_, ?_, ?_⟩
  · intro st name st' h hg
    rcases hc : alookup st.hosts name with _ | h0
    · rcases hf : st.cluster.find? (fun s => s.name == name) with _ | svc
      · simp [getServiceHost, hc, hf] at hg
      · simp only [getServiceHost, hc, hf, Except.ok.injEq, Prod.mk.injEq] at hg
        obtain ⟨h1, h2⟩ := hg
        subst h1
        subst h2
        exact alookup_aset_self st.hosts name (urlHost svc.url)
    · simp only [getServiceHost, hc, Except.ok.injEq, Prod.mk.injEq] at hg
      obtain ⟨h1, h2⟩ := hg
      subst h1
      subst h2
      exact hc
  · intro st image memory lbl url
    simp only [createServiceState]
    exact alookup_aset_self st.hosts (formatServiceName image memory) (urlHost url)
  · intro st image memory
    rw [deleteRuntime_eq_filter]

/-- C6 (witness): the cache-creation implication at a concrete state. -/
theorem C6_cache_lifecycle_witness :
    alookup [("a--256mb".toList, "h.example")] "a--256mb".toList = some "h.example" :=
  C6_cache_lifecycle.1
    ⟨[⟨"a--256mb".toList, some "pywren-runtime", "http://h.example"⟩], []⟩
    "a--256mb".toList
    ⟨[⟨"a--256mb".toList, some "pywren-runtime", "http://h.example"⟩],
      [("a--256mb".toList, "h.example")]⟩
    "h.example" rfl

/-- C7: `create_runtime` triggers the build pipeline exactly when the
requested image is the `'default'` sentinel (or literally the default image
name), and `_build_docker_image_from_git` skips the build whenever the
registry existence check for `image:revision` runs and answers 200. -/
theorem C7_build_trigger_and_skip (defaultImg image repo version : String)
    (registryStatus : String → String → Nat) :
    (image = "default" ∨ image = defaultImg →
      createRuntimeBuild defaultImg image = some defaultImg) ∧
    (repo = "docker.io" → ¬buildRevision version = "latest" →
      registryStatus image (buildRevision version) = 200 →
      buildCheck repo version registryStatus image = BuildStep.skipped) := by
  constructor
  · intro h
    simp [createRuntimeBuild, h]
  · intro h1 h2 h3
    simp [buildCheck, h1, h2, h3]

/-- C7 (witness): the default sentinel triggers the build, and a 200 from
the registry check skips it. -/
theorem C7_build_trigger_and_skip_witness :
    createRuntimeBuild "u/pywren-default" "default" = some "u/pywren-default" ∧
    buildCheck "docker.io" "1.0.6" (fun _ _ => 200) "u/pywren-default" =
      BuildStep.skipped := by
  have h := C7_build_trigger_and_skip "u/pywren-default" "default" "docker.io" "1.0.6"
    (fun _ _ => 200)
  exact ⟨h.1 (Or.inl rfl), h.2 rfl (by decide) rfl⟩

/-- C8: deleting an absent runtime makes the underlying k8s delete call
raise, but `delete_runtime` swallows the exception and returns with the
state unchanged — success, no error surfaced; moreover both `delete_runtime`
and `delete_all_runtimes` are idempotent. -/
theorem C8_delete_idempotent (st : BState) (image : Str) (memory : Nat) :
    (st.cluster.any (fun s => s.name == formatServiceName image memory) = false →
      k8sDeleteService st.cluster (formatServiceName image memory) = Except.error () ∧
      deleteRuntime st image memory = st) ∧
    deleteRuntime (deleteRuntime st image memory) image memory =
      deleteRuntime st image memory ∧
    deleteAllRuntimes (deleteAllRuntimes st) = deleteAllRuntimes st := by
  refine ⟨?_, ?_, ?_⟩
  · intro h
    have hne : ¬st.cluster.any (fun s => s.name == formatServiceName image memory) = true := by
      simp [h]
    constructor
    · simp [k8sDeleteService, hne]
    · simp only [deleteRuntime, k8sDeleteService, if_neg hne]
  · rw [deleteRuntime_eq_filter st image memory, deleteRuntime_eq_filter]
    simp [List.filter_filter]
  · rw [deleteAllRuntimes_spec st, deleteAllRuntimes_spec]
    congr 1
    apply List.filter_eq_self.mpr
    intro s hs
    rcases he : (((listRuntimes
        ((⟨st.cluster.filter (fun s => !(((listRuntimes st.cluster allFilter).map
          (fun r => formatServiceName r.1 r.2)).elem s.name)), st.hosts⟩ : BState).cluster)
        allFilter).map (fun r => formatServiceName r.1 r.2)).elem s.name) with _ | _
    · rw [he]
      rfl
    · exfalso
      obtain ⟨⟨i, m⟩, hin, hname⟩ := List.mem_map.mp (List.mem_of_elem_eq_true he)
      have hin2 : (i, m) ∈ listRuntimes st.cluster allFilter :=
        listRuntimes_filter_subset _ st.cluster allFilter hin
      have hname2 : s.name ∈ (listRuntimes st.cluster allFilter).map
          (fun r => formatServiceName r.1 r.2) :=
        List.mem_map.mpr ⟨(i, m), hin2, hname⟩
      have hsC1 := (List.mem_filter.mp hs).2
      rw [List.elem_eq_true_of_mem hname2] at hsC1
      simp at hsC1

/-- C8 (witness): deleting from an empty cluster raises inside the API call
and still returns the state unchanged. -/
theorem C8_delete_idempotent_witness :
    k8sDeleteService ([] : List KService) (formatServiceName "a".toList 128) =
      Except.error () ∧
    deleteRuntime ⟨[], []⟩ "a".toList 128 = ⟨[], []⟩ :=
  (C8_delete_idempotent ⟨[], []⟩ "a".toList 128).1 (by decide)

/-- C9: `list_runtimes('all')` returns exactly the services carrying the
`type: pywren-runtime` label whose names decode, paired with their decoded
`(image, memory)`; `list_runtimes(image)` returns exactly the entries of
that list whose decoded image equals the filter; label-less and undecodable
services are skipped without error (the functions are total). -/
theorem C9_list_runtimes_exact (services : List KService) (filt : Str) :
    listRuntimes services allFilter = specOwnedRuntimes services ∧
    listRuntimes services filt =
      (specOwnedRuntimes services).filter
        (fun r => filt = r.1 ∨ filt = allFilter) := by
  have hmain : ∀ (f : Str) (ss : List KService),
      listRuntimes ss f = (specOwnedRuntimes ss).filter
        (fun r => f = r.1 ∨ f = allFilter) := by
    intro f ss
    induction ss with
    | nil => rfl
    | cons s rest ih =>
      rcases hl : s.typeLabel with _ | l
      · have he : listRuntimes (s :: rest) f = listRuntimes rest f := by
          simp [listRuntimes, hl]
        have he2 : specOwnedRuntimes (s :: rest) = specOwnedRuntimes rest := by
          simp [specOwnedRuntimes, hl]
        rw [he, he2, ih]
      · by_cases hpw : l = "pywren-runtime"
        · subst hpw
          rcases hu : unformatServiceName s.name with _ | p
          · have he : listRuntimes (s :: rest) f = listRuntimes rest f := by
              simp [listRuntimes, hl, hu]
            have he2 : specOwnedRuntimes (s :: rest) = specOwnedRuntimes rest := by
              simp [specOwnedRuntimes, hl, hu]
            rw [he, he2, ih]
          · obtain ⟨i', m'⟩ := p
            have he2 : specOwnedRuntimes (s :: rest) = (i', m') :: specOwnedRuntimes rest := by
              simp [specOwnedRuntimes, hl, hu]
            by_cases hf : f = i' ∨ f = allFilter
            · have he : listRuntimes (s :: rest) f = (i', m') :: listRuntimes rest f := by
                simp [listRuntimes, hl, hu, hf]
              rw [he, he2, ih, List.filter_cons]
              simp [hf]
            · have he : listRuntimes (s :: rest) f = listRuntimes rest f := by
                simp [listRuntimes, hl, hu, hf]
              rw [he, he2, ih, List.filter_cons]
              simp [hf]
        · have he : listRuntimes (s :: rest) f = listRuntimes rest f := by
            simp [listRuntimes, hl, hpw]
          have he2 : specOwnedRuntimes (s :: rest) = specOwnedRuntimes rest := by
            simp [specOwnedRuntimes, hl, hpw]
          rw [he, he2, ih]
  refine ⟨?_, hmain filt services⟩
  rw [hmain allFilter]
  apply List.filter_eq_self.mpr
  intro r _
  exact decide_eq_true (Or.inr rfl)

/-- C10 (counterexample): a labeled service whose stored name (`a--05mb`)
differs from the canonical re-encoding of its decoded pair is listed by
`list_runtimes('all')` but survives `delete_all_runtimes`, while an
unrelated, unlabeled service that happens to bear the re-encoded name
(`a--5mb`) is deleted. -/
theorem C10_counterexample :
    listRuntimes [⟨"a--05mb".toList, some "pywren-runtime", "http://u1"⟩,
      ⟨"a--5mb".toList, none, "http://u2"⟩] allFilter = [("a".toList, 5)] ∧
    deleteAllRuntimes ⟨[⟨"a--05mb".toList, some "pywren-runtime", "http://u1"⟩,
      ⟨"a--5mb".toList, none, "http://u2"⟩], []⟩ =
      ⟨[⟨"a--05mb".toList, some "pywren-runtime", "http://u1"⟩], []⟩ := by
  refine ⟨by decide, by decide⟩

/-- C10 (amended): `delete_all_runtimes` deletes exactly the services whose
name equals the re-encoding `_format_service_name(image, memory)` of some
pair returned by `list_runtimes('all')`, and touches nothing else — in
particular the host cache and every service whose name is not such a
re-encoding (even a listed one with a non-canonical name) are left
unchanged. -/
theorem C10_delete_all_exact (st : BState) :
    deleteAllRuntimes st =
      ⟨st.cluster.filter
        (fun s => !(((listRuntimes st.cluster allFilter).map
          (fun r => formatServiceName r.1 r.2)).elem s.name)), st.hosts⟩ :=
  deleteAllRuntimes_spec st

end PyWrenKn
